import Mathlib

/-!
Verification of `fairlearn/preprocessing/_fair_representation_learner.py`
(class `FairRepresentationLearner`), shallowly embedded over the real numbers.

Modelling conventions for the NumPy/SciPy/sklearn collaborators:
the mean `np.mean` over a possibly empty array is `npMeanList`, where `none`
models the NaN produced by the mean of an empty array;
`scipy.spatial.distance.cdist(X, V, metric="euclidean", w=alpha)` is
`weightedEuclidean`; `scipy.special.softmax` is the mathematical softmax
(the max-shift performed by scipy for numerical stability is an exact
identity over the reals); `sklearn.metrics.log_loss` is `logLossR`, with the
clipping constant kept as an explicit parameter `eps`; `np.triu_indices(G, 1)`
is `triuPairs`. The numerical minimizer (`scipy.optimize.minimize`) and the
fallback `sklearn.linear_model.LogisticRegression` trainer are external
collaborators and appear as function parameters of the fitting routines.
-/

/-- Model of `np.mean` on a 1-d array of reals: `none` models the NaN
returned for an empty array, otherwise the sum divided by the length. -/
noncomputable def npMeanList (l : List ℝ) : Option ℝ :=
  match l with
  | [] => none
  | _ => some (l.sum / l.length)

/-- Model of `np.triu_indices(n=G, k=1)` paired up: the list of pairs
`(a, b)` of indices with `a < b`, in row-major order. -/
def triuPairs (G : ℕ) : List (Fin G × Fin G) :=
  (List.finRange G).flatMap fun a =>
    ((List.finRange G).filter fun b => decide (a < b)).map fun b => (a, b)

/-- Model of `scipy.spatial.distance.cdist(·, ·, metric="euclidean", w=w)` on
a single pair of rows: the weighted Euclidean distance
`sqrt(sum_f w_f * (u_f - v_f)^2)`. -/
noncomputable def weightedEuclidean (d : ℕ) (w u v : Fin d → ℝ) : ℝ :=
  Real.sqrt (∑ f, w f * (u f - v f) ^ 2)

/-- Translation of the static method `FairRepresentationLearner._get_latent_mapping`
(lines 554-579 of `_fair_representation_learner.py`): pairwise weighted
Euclidean distances from samples to prototypes, then a row-wise softmax of
the negated distances. -/
noncomputable def getLatentMapping (n k d : ℕ) (X : Fin n → Fin d → ℝ)
    (prototypes : Fin k → Fin d → ℝ) (dimension_weights : Fin d → ℝ) :
    Fin n → Fin k → ℝ :=
  fun i j =>
    Real.exp (-(weightedEuclidean d dimension_weights (X i) (prototypes j))) /
      ∑ j', Real.exp (-(weightedEuclidean d dimension_weights (X i) (prototypes j')))

/-- Unpacking of the prototype block: `x[: n_prototypes * d].reshape((n_prototypes, d))`
(row-major), from the `objective` closure, line 339. -/
def unpackV (k d : ℕ) (x : Fin (k * d + k + d) → ℝ) : Fin k → Fin d → ℝ :=
  fun j f =>
    x ⟨j.1 * d + f.1, by
      have hf := f.2
      have h : (j.1 + 1) * d ≤ k * d := Nat.mul_le_mul_right d j.2
      have h' : (j.1 + 1) * d = j.1 * d + d := by ring
      omega⟩

/-- Unpacking of the predictor block: `x[k * d : -d]`, from the `objective`
closure, line 357. -/
def unpackW (k d : ℕ) (x : Fin (k * d + k + d) → ℝ) : Fin k → ℝ :=
  fun j => x ⟨k * d + j.1, by have := j.2; omega⟩

/-- Unpacking of the dimension-weights block: `x[-d :]`, from the `objective`
closure, line 340. -/
def unpackAlpha (k d : ℕ) (x : Fin (k * d + k + d) → ℝ) : Fin d → ℝ :=
  fun f => x ⟨k * d + k + f.1, by have := f.2; omega⟩

/-- Model of `np.clip(p, lo, hi)` on a scalar. -/
noncomputable def clipR (lo hi p : ℝ) : ℝ := min (max p lo) hi

/-- Model of `sklearn.metrics.log_loss(y, yhat)` for encoded binary labels
`y` in (0,1) and 1-d predicted positive-class probabilities `yhat`: the mean
binary cross-entropy, with the predictions clipped to `[eps, 1 - eps]` before
the logarithms are taken. -/
noncomputable def logLossR (n : ℕ) (eps : ℝ) (y yhat : Fin n → ℝ) : ℝ :=
  -(∑ i, (y i * Real.log (clipR eps (1 - eps) (yhat i)) +
      (1 - y i) * Real.log (1 - clipR eps (1 - eps) (yhat i)))) / n

/-- Group-wise mean of the membership matrix:
`np.mean(M[sensitive_features == group], axis=0)` from line 348. Each group
present in the data is nonempty by construction (the group list is
`sensitive_features.unique()`), so the division is by a positive count on
every reachable input. -/
noncomputable def groupMeanM (n k G : ℕ) (M : Fin n → Fin k → ℝ)
    (group : Fin n → Fin G) (g : Fin G) (j : Fin k) : ℝ :=
  (∑ i ∈ Finset.univ.filter fun i => group i = g, M i j) /
    (Finset.univ.filter fun i => group i = g).card

/-- Translation of the fairness term of the `objective` closure, lines 345-354:
`np.mean(np.abs(M_gk[triu0, None] - M_gk[triu1, None]))`, a single mean over
the flattened array of absolute entry-wise differences of group-mean rows,
one block of `k` entries per unordered group pair. -/
noncomputable def fairnessError (G k : ℕ) (Mgk : Fin G → Fin k → ℝ) : Option ℝ :=
  npMeanList ((triuPairs G).flatMap fun p =>
    (List.finRange k).map fun j => |Mgk p.1 j - Mgk p.2 j|)

/-- Translation of the `objective` closure of
`FairRepresentationLearner._optimize_with_sensitive_features`
(lines 336-365): unpack `x` into `V`, `w`, `alpha`; compute the latent
mapping `M`; the reconstruction error is the sample mean of the squared
row-wise Euclidean distance between `X` and `M @ V`; the fairness error is
`fairnessError` over the group means; the classification error is
`log_loss(y, M @ w)`; the result is `Ax*reconstruction + Ay*classification
+ Az*fairness`. A `none` result models a NaN total (empty mean propagating
through the weighted sum). -/
noncomputable def objective (n k d G : ℕ) (Ax Ay Az eps : ℝ)
    (x : Fin (k * d + k + d) → ℝ) (X : Fin n → Fin d → ℝ) (y : Fin n → ℝ)
    (group : Fin n → Fin G) : Option ℝ :=
  let V := unpackV k d x
  let alpha := unpackAlpha k d x
  let M := getLatentMapping n k d X V alpha
  let Xhat : Fin n → Fin d → ℝ := fun i f => ∑ j, M i j * V j f
  let reconstructionOpt :=
    npMeanList ((List.finRange n).map fun i => ∑ f, (X i f - Xhat i f) ^ 2)
  let fairnessOpt := fairnessError G k (groupMeanM n k G M group)
  let w := unpackW k d x
  let yhat : Fin n → ℝ := fun i => ∑ j, M i j * w j
  match reconstructionOpt, fairnessOpt with
  | some re, some fe =>
      some (Ax * re + Ay * logLossR n eps y yhat + Az * fe)
  | _, _ => none

/-- The enumerated algorithms of the `optimizer` constructor parameter
(lines 57-59 and 205-207 of `_fair_representation_learner.py`). -/
inductive OptimizerChoice
  | LBFGSB
  | NelderMead
  | Powell
  | SLSQP
  | TNC
  | trustConstr
  | COBYLA
  | COBYQA
deriving DecidableEq

/-- The constructor parameters of `FairRepresentationLearner.__init__`
(lines 227-247) that the fitting paths consume. -/
structure FRLConfig where
  n_prototypes : ℕ
  Ax : ℝ
  Ay : ℝ
  Az : ℝ
  optimizer : OptimizerChoice
  tol : ℝ
  max_iter : ℕ

/-- Model of `scipy.optimize.OptimizeResult` as consumed by the source
(lines 398-403): the optimal point `x`, the success flag, and the iteration
count `nit`. -/
structure OptimizeResult (N : ℕ) where
  x : Fin N → ℝ
  success : Bool
  nit : ℕ

/-- The non-objective arguments of the `scipy.optimize.minimize` call at
lines 386-394: initial point, method, tolerance and iteration cap. -/
structure MinimizeCall (N : ℕ) where
  x0 : Fin N → ℝ
  method : OptimizerChoice
  tol : ℝ
  maxiter : ℕ

/-- The external bound-constrained numerical minimizer: given the objective
and the call arguments it either returns a result or fails with an
exception, modelled as `Except`. -/
def Minimizer (N : ℕ) : Type :=
  ((Fin N → ℝ) → Option ℝ) → MinimizeCall N → Except String (OptimizeResult N)

/-- Model of a fitted `sklearn.linear_model.LogisticRegression`: its
coefficient vector, iteration count, and positive-class probability
function, as consumed at lines 438-443 and 504. -/
structure LogisticModel (d : ℕ) where
  coef : Fin d → ℝ
  n_iter : ℕ
  predictProbaPos : (Fin d → ℝ) → ℝ

/-- The learned state written by a successful `fit` call: the fields
`coef_`, `_prototypes_`, `_alpha_`, `n_iter_`, `_fall_back_classifier` and
the label classes recorded by `_validate_X_y`. `coef` is kept as a bare
list of reals because the source stores arrays of different lengths in
`coef_` on the two fitting paths. -/
structure FRLFitted (L : Type) (k d : ℕ) where
  coef : Option (List ℝ)
  prototypes : Option (Fin k → Fin d → ℝ)
  alpha : Option (Fin d → ℝ)
  n_iter : Option ℕ
  fall_back_classifier : Option (LogisticModel d)
  classes : List L

/-- The `method` argument passed to `scipy.optimize.minimize` at line 391:
the string literal `"L-BFGS-B"`. The configured `self.optimizer` does not
appear anywhere in the call. -/
def frlMethodUsed (_cfg : FRLConfig) : OptimizerChoice := OptimizerChoice.LBFGSB

/-- Translation of `FairRepresentationLearner._optimize_with_sensitive_features`
(lines 292-407): call the minimizer on the joint objective with the
hard-coded method, the configured tolerance and iteration cap, and the
random initial point `x0`; on an exception raise the single RuntimeError
message; on a returned result unpack `result.x` into `coef_`,
`_prototypes_`, `_alpha_` with the fixed slice layout, record `result.nit`,
and clear the fallback classifier. -/
noncomputable def optimizeWithSensitiveFeatures (L : Type) (n k d G : ℕ)
    (cfg : FRLConfig) (minimizeFn : Minimizer (k * d + k + d)) (eps : ℝ)
    (X : Fin n → Fin d → ℝ) (y : Fin n → ℝ) (group : Fin n → Fin G)
    (classes : List L) (x0 : Fin (k * d + k + d) → ℝ) :
    Except String (FRLFitted L k d) :=
  match minimizeFn
      (fun v => objective n k d G cfg.Ax cfg.Ay cfg.Az eps v X y group)
      { x0 := x0, method := frlMethodUsed cfg, tol := cfg.tol,
        maxiter := cfg.max_iter } with
  | Except.error _ => Except.error "The loss minimization failed."
  | Except.ok result =>
    Except.ok
      { coef := some ((List.finRange k).map (unpackW k d result.x))
        prototypes := some (unpackV k d result.x)
        alpha := some (unpackAlpha k d result.x)
        n_iter := some result.nit
        fall_back_classifier := none
        classes := classes }

/-- Translation of `FairRepresentationLearner._optimize_without_sensitive_features`
(lines 409-445): fit the external logistic regression, store it as the
fallback classifier, copy its coefficients into `coef_` and its iteration
count into `n_iter_`, and set `_prototypes_` and `_alpha_` to `None`. -/
def optimizeWithoutSensitiveFeatures (L : Type) (n k d : ℕ)
    (trainLogReg : (Fin n → Fin d → ℝ) → (Fin n → ℝ) → LogisticModel d)
    (X : Fin n → Fin d → ℝ) (y : Fin n → ℝ) (classes : List L) :
    FRLFitted L k d :=
  let m := trainLogReg X y
  { coef := some ((List.finRange d).map m.coef)
    prototypes := none
    alpha := none
    n_iter := some m.n_iter
    fall_back_classifier := some m
    classes := classes }

/-- Translation of `FairRepresentationLearner.transform` (lines 447-476):
return `X` unchanged when the fallback classifier is set, otherwise compute
the latent mapping from the learned prototypes and dimension weights and
return `M @ prototypes`. `none` models the unreachable case of a fitted
state with neither branch populated. -/
noncomputable def transform (L : Type) (k d n : ℕ) (st : FRLFitted L k d)
    (X : Fin n → Fin d → ℝ) : Option (Fin n → Fin d → ℝ) :=
  match st.fall_back_classifier with
  | some _ => some X
  | none =>
    match st.prototypes, st.alpha with
    | some V, some alpha =>
      some (fun i f => ∑ j, getLatentMapping n k d X V alpha i j * V j f)
    | _, _ => none

/-- Translation of the property `FairRepresentationLearner.prototypes_`
(lines 532-541): an `AttributeError` when no prototypes were learned. -/
def prototypesAccessor (L : Type) (k d : ℕ) (st : FRLFitted L k d) :
    Except String (Fin k → Fin d → ℝ) :=
  match st.prototypes with
  | none => Except.error
      "No sensitive features provided when fitting. No prototypes were learned."
  | some V => Except.ok V

/-- Translation of the property `FairRepresentationLearner.alpha_`
(lines 543-552): an `AttributeError` when no dimension weights were
learned. -/
def alphaAccessor (L : Type) (k d : ℕ) (st : FRLFitted L k d) :
    Except String (Fin d → ℝ) :=
  match st.alpha with
  | none => Except.error
      "No sensitive features provided when fitting. No distance was learned."
  | some a => Except.ok a

/-- Entry `j` of the stored `coef_` array, read back as the prototype
predictor vector `w` (line 507 uses `M @ self.coef_`). In the with-groups
fitted state the stored list has length `k`, so the default is never
reached there. -/
def coefAt (c : Option (List ℝ)) (j : ℕ) : ℝ := (c.getD []).getD j 0

/-- Translation of `FairRepresentationLearner.predict_proba` restricted to
its positive-class column (lines 478-508): the fallback classifier's
probability when it is set, otherwise `M @ coef_` from the latent mapping.
`none` models the unreachable fitted state with neither branch populated. -/
noncomputable def predictProba (L : Type) (k d n : ℕ) (st : FRLFitted L k d)
    (X : Fin n → Fin d → ℝ) : Option (Fin n → ℝ) :=
  match st.fall_back_classifier with
  | some m => some fun i => m.predictProbaPos (X i)
  | none =>
    match st.prototypes, st.alpha with
    | some V, some alpha =>
      some fun i => ∑ j, getLatentMapping n k d X V alpha i j * coefAt st.coef j.1
    | _, _ => none

/-- Translation of `FairRepresentationLearner.predict` (lines 510-530):
threshold the positive-class probability at 0.5 and map the resulting
boolean through `LabelEncoder.inverse_transform`, i.e. index the stored
class list with 0 or 1. -/
noncomputable def predict (L : Type) (k d n : ℕ) (st : FRLFitted L k d)
    (X : Fin n → Fin d → ℝ) : Option (Fin n → Option L) :=
  (predictProba L k d n st X).map fun p i =>
    st.classes.get? (if 1 / 2 < p i then 1 else 0)

/-- Model of the external `sklearn.calibration.LabelEncoder` fitted on `y`
at line 610: its `classes_` are the distinct values occurring in `y`
(`np.unique(y)`; kept in first-occurrence order here, which is immaterial
to membership). -/
def labelEncoderFit (L : Type) [DecidableEq L] (y : List L) : List L := y.dedup

theorem npMeanList_eq_some (l : List ℝ) (h : l ≠ []) :
    npMeanList l = some (l.sum / l.length) := by
  cases l with
  | nil => exact absurd rfl h
  | cons a t => rfl

theorem npMeanList_finRange_map (n : ℕ) (hn : 0 < n) (f : Fin n → ℝ) :
    npMeanList ((List.finRange n).map f) = some ((∑ i, f i) / n) := by
  have hne : (List.finRange n).map f ≠ [] := by
    intro h
    have := congrArg List.length h
    simp at this
    omega
  rw [npMeanList_eq_some _ hne, List.length_map, List.length_finRange,
    Fin.sum_univ_def]

theorem mem_triuPairs (G : ℕ) (p : Fin G × Fin G) :
    p ∈ triuPairs G ↔ p.1 < p.2 := by
  cases p with
  | mk a b =>
    constructor
    · intro h
      obtain ⟨a', _, hx⟩ := List.mem_flatMap.mp h
      obtain ⟨b', hb', heq⟩ := List.mem_map.mp hx
      obtain ⟨_, hlt⟩ := List.mem_filter.mp hb'
      injection heq with h1 h2
      subst h1
      subst h2
      exact of_decide_eq_true hlt
    · intro hlt
      refine List.mem_flatMap.mpr ⟨a, List.mem_finRange a, ?_⟩
      exact List.mem_map.mpr
        ⟨b, List.mem_filter.mpr ⟨List.mem_finRange b, decide_eq_true hlt⟩, rfl⟩

theorem triuPairs_nodup (G : ℕ) : (triuPairs G).Nodup := by
  rw [triuPairs, List.nodup_flatMap]
  refine ⟨fun a _ => ?_, ?_⟩
  · exact List.Nodup.map (fun b b' h => (Prod.ext_iff.mp h).2)
      (List.Nodup.filter _ (List.nodup_finRange G))
  · refine List.Pairwise.imp (fun hne => ?_) (List.nodup_finRange G)
    intro x hx hx'
    obtain ⟨ba, _, heqa⟩ := List.mem_map.mp hx
    obtain ⟨bb, _, heqb⟩ := List.mem_map.mp hx'
    apply hne
    have h1 := congrArg Prod.fst heqa
    have h2 := congrArg Prod.fst heqb
    exact h1.trans h2.symm

theorem fairnessError_eq (G k : ℕ) (hG : 2 ≤ G) (hk : 0 < k)
    (Mgk : Fin G → Fin k → ℝ) :
    fairnessError G k Mgk =
      some ((((triuPairs G).map fun p =>
          (∑ j, |Mgk p.1 j - Mgk p.2 j|) / k).sum) / (triuPairs G).length) := by
  have hp0 : ((⟨0, by omega⟩, ⟨1, by omega⟩) : Fin G × Fin G) ∈ triuPairs G :=
    (mem_triuPairs G _).mpr (by simp [Fin.lt_def])
  have hmem : |Mgk ⟨0, by omega⟩ ⟨0, hk⟩ - Mgk ⟨1, by omega⟩ ⟨0, hk⟩| ∈
      (triuPairs G).flatMap fun p =>
        (List.finRange k).map fun j => |Mgk p.1 j - Mgk p.2 j| :=
    List.mem_flatMap.mpr ⟨_, hp0, List.mem_map.mpr ⟨⟨0, hk⟩, List.mem_finRange _, rfl⟩⟩
  rw [fairnessError, npMeanList_eq_some _ (List.ne_nil_of_mem hmem)]
  congr 1
  have hsum : ((triuPairs G).flatMap fun p =>
      (List.finRange k).map fun j => |Mgk p.1 j - Mgk p.2 j|).sum =
      ((triuPairs G).map fun p => ∑ j, |Mgk p.1 j - Mgk p.2 j|).sum := by
    rw [List.flatMap_def, List.sum_flatten, List.map_map]
    refine congrArg List.sum (List.map_congr_left ?_)
    intro p _
    simp only [Function.comp_apply]
    exact (Fin.sum_univ_def _).symm
  have hlen : ((triuPairs G).flatMap fun p =>
      (List.finRange k).map fun j => |Mgk p.1 j - Mgk p.2 j|).length =
      (triuPairs G).length * k := by
    rw [List.length_flatMap]
    have : (List.map (List.length ∘ fun p =>
        (List.finRange k).map fun j => |Mgk p.1 j - Mgk p.2 j|) (triuPairs G)) =
        List.map (fun _ => k) (triuPairs G) := by
      apply List.map_congr_left
      intro p _
      simp
    rw [this, List.map_const', List.sum_replicate, smul_eq_mul]
  rw [hsum, hlen]
  have hdivs : ((triuPairs G).map fun p =>
      (∑ j, |Mgk p.1 j - Mgk p.2 j|) / (k : ℝ)).sum =
      ((triuPairs G).map fun p => ∑ j, |Mgk p.1 j - Mgk p.2 j|).sum / k := by
    simp only [div_eq_mul_inv]
    rw [List.sum_map_mul_right]
  rw [hdivs, Nat.cast_mul, div_div]
  ring

/-- C2: for every feature matrix, prototype matrix with at least one
prototype, and non-negative dimension weights, the latent mapping has all
entries in [0, 1], each row sums to 1, and each entry is the row-wise
softmax of the negated weighted Euclidean distances. -/
theorem C2_latent_mapping_row_stochastic_softmax (n k d : ℕ) (hk : 0 < k)
    (X : Fin n → Fin d → ℝ) (V : Fin k → Fin d → ℝ) (alpha : Fin d → ℝ)
    (halpha : ∀ f, 0 ≤ alpha f) :
    (∀ i j, 0 ≤ getLatentMapping n k d X V alpha i j ∧
        getLatentMapping n k d X V alpha i j ≤ 1) ∧
    (∀ i, ∑ j, getLatentMapping n k d X V alpha i j = 1) ∧
    (∀ i j, getLatentMapping n k d X V alpha i j =
      Real.exp (-(Real.sqrt (∑ f, alpha f * (X i f - V j f) ^ 2))) /
        ∑ j', Real.exp (-(Real.sqrt (∑ f, alpha f * (X i f - V j' f) ^ 2)))) := by
  have hpos : ∀ i : Fin n,
      0 < ∑ j' : Fin k, Real.exp (-(weightedEuclidean d alpha (X i) (V j'))) := by
    intro i
    exact Finset.sum_pos (fun j _ => Real.exp_pos _) ⟨⟨0, hk⟩, Finset.mem_univ _⟩
  have hbounds : ∀ i j, 0 ≤ getLatentMapping n k d X V alpha i j ∧
      getLatentMapping n k d X V alpha i j ≤ 1 := by
    intro i j
    simp only [getLatentMapping]
    constructor
    · exact div_nonneg (Real.exp_pos _).le (hpos i).le
    · refine (div_le_one (hpos i)).mpr ?_
      exact Finset.single_le_sum
        (f := fun j' : Fin k => Real.exp (-(weightedEuclidean d alpha (X i) (V j'))))
        (fun j' _ => (Real.exp_pos _).le) (Finset.mem_univ j)
  have hrow : ∀ i, ∑ j, getLatentMapping n k d X V alpha i j = 1 := by
    intro i
    simp only [getLatentMapping]
    rw [← Finset.sum_div]
    exact div_self (hpos i).ne'
  have hform : ∀ i j, getLatentMapping n k d X V alpha i j =
      Real.exp (-(Real.sqrt (∑ f, alpha f * (X i f - V j f) ^ 2))) /
        ∑ j', Real.exp (-(Real.sqrt (∑ f, alpha f * (X i f - V j' f) ^ 2))) := by
    intro i j
    simp only [getLatentMapping, weightedEuclidean]
  exact ⟨hbounds, hrow, hform⟩

/-- C2 witness: the latent mapping properties hold at a concrete
one-sample, one-prototype, one-feature input with zero weights. -/
theorem C2_latent_mapping_row_stochastic_softmax_witness :
    (0 < 1 ∧ ∀ f : Fin 1, (0 : ℝ) ≤ (fun _ : Fin 1 => (0 : ℝ)) f) ∧
    ((∀ i j, 0 ≤ getLatentMapping 1 1 1 (fun _ _ => 0) (fun _ _ => 0) (fun _ => 0) i j ∧
        getLatentMapping 1 1 1 (fun _ _ => 0) (fun _ _ => 0) (fun _ => 0) i j ≤ 1) ∧
    (∀ i, ∑ j, getLatentMapping 1 1 1 (fun _ _ => 0) (fun _ _ => 0) (fun _ => 0) i j = 1) ∧
    (∀ i : Fin 1, ∀ j : Fin 1,
      getLatentMapping 1 1 1 (fun _ _ => 0) (fun _ _ => 0) (fun _ => 0) i j =
      Real.exp (-(Real.sqrt (∑ f : Fin 1, (fun _ : Fin 1 => (0 : ℝ)) f *
          ((fun _ _ => (0 : ℝ) : Fin 1 → Fin 1 → ℝ) i f -
            (fun _ _ => (0 : ℝ) : Fin 1 → Fin 1 → ℝ) j f) ^ 2))) /
        ∑ j' : Fin 1, Real.exp (-(Real.sqrt (∑ f : Fin 1, (fun _ : Fin 1 => (0 : ℝ)) f *
          ((fun _ _ => (0 : ℝ) : Fin 1 → Fin 1 → ℝ) i f -
            (fun _ _ => (0 : ℝ) : Fin 1 → Fin 1 → ℝ) j' f) ^ 2))))) :=
  ⟨⟨Nat.one_pos, fun _ => le_refl 0⟩,
    C2_latent_mapping_row_stochastic_softmax 1 1 1 Nat.one_pos
      (fun _ _ => 0) (fun _ _ => 0) (fun _ => 0) (fun _ => le_refl 0)⟩

/-- C8: a model fitted through the fallback path (no sensitive features)
transforms any input to itself. -/
theorem C8_transform_identity_in_fallback_mode (L : Type) (n k d m : ℕ)
    (trainLogReg : (Fin n → Fin d → ℝ) → (Fin n → ℝ) → LogisticModel d)
    (X : Fin n → Fin d → ℝ) (y : Fin n → ℝ) (classes : List L)
    (Xnew : Fin m → Fin d → ℝ) :
    transform L k d m (optimizeWithoutSensitiveFeatures L n k d trainLogReg X y classes)
      Xnew = some Xnew := rfl

/-- C9: on a model fitted through the fallback path, both the prototype
accessor and the dimension-weight accessor fail with the attribute-error
messages of the source; neither returns a value. -/
theorem C9_accessors_error_in_fallback_mode (L : Type) (n k d : ℕ)
    (trainLogReg : (Fin n → Fin d → ℝ) → (Fin n → ℝ) → LogisticModel d)
    (X : Fin n → Fin d → ℝ) (y : Fin n → ℝ) (classes : List L) :
    prototypesAccessor L k d
        (optimizeWithoutSensitiveFeatures L n k d trainLogReg X y classes) =
      Except.error
        "No sensitive features provided when fitting. No prototypes were learned." ∧
    alphaAccessor L k d
        (optimizeWithoutSensitiveFeatures L n k d trainLogReg X y classes) =
      Except.error
        "No sensitive features provided when fitting. No distance was learned." :=
  ⟨rfl, rfl⟩

/-- C10: with exactly one sensitive group there are no unordered group
pairs, so the fairness term is the mean of an empty array (`none`, modelling
NaN) and the whole objective evaluates to `none` rather than to 0, at every
parameter vector. -/
theorem C10_single_group_objective_is_empty_mean (n k d : ℕ) (Ax Ay Az eps : ℝ)
    (x : Fin (k * d + k + d) → ℝ) (X : Fin n → Fin d → ℝ) (y : Fin n → ℝ)
    (group : Fin n → Fin 1) (Mgk : Fin 1 → Fin k → ℝ) :
    fairnessError 1 k Mgk = none ∧
    objective n k d 1 Ax Ay Az eps x X y group = none := by
  have htriu : triuPairs 1 = [] := by decide
  have hfe : ∀ M : Fin 1 → Fin k → ℝ, fairnessError 1 k M = none := by
    intro M
    rw [fairnessError, htriu]
    rfl
  refine ⟨hfe Mgk, ?_⟩
  show (match npMeanList _, fairnessError 1 k _ with
    | some re, some fe => some (Ax * re + Ay * _ + Az * fe)
    | _, _ => none) = none
  rw [hfe]
  cases npMeanList ((List.finRange n).map _) <;> rfl

/-- C3: with at least two groups (and at least one prototype), the fairness
error of the objective equals the average, over the list of all unordered
pairs of distinct groups (each pair listed exactly once, as certified by the
membership and no-duplicates conjuncts), of the mean absolute difference
between the two groups' mean membership vectors. -/
theorem C3_fairness_error_mean_over_pairs (n k G : ℕ) (hG : 2 ≤ G) (hk : 0 < k)
    (M : Fin n → Fin k → ℝ) (group : Fin n → Fin G) :
    (∀ p : Fin G × Fin G, p ∈ triuPairs G ↔ p.1 < p.2) ∧
    (triuPairs G).Nodup ∧
    fairnessError G k (groupMeanM n k G M group) =
      some ((((triuPairs G).map fun p =>
          (∑ j, |groupMeanM n k G M group p.1 j - groupMeanM n k G M group p.2 j|) / k).sum) /
        (triuPairs G).length) :=
  ⟨fun p => mem_triuPairs G p, triuPairs_nodup G, fairnessError_eq G k hG hk _⟩

/-- C3 witness: the fairness-error identity instantiated at a concrete
two-group, one-prototype, one-sample input. -/
theorem C3_fairness_error_mean_over_pairs_witness :
    ((2 : ℕ) ≤ 2 ∧ (0 : ℕ) < 1) ∧
    ((∀ p : Fin 2 × Fin 2, p ∈ triuPairs 2 ↔ p.1 < p.2) ∧
    (triuPairs 2).Nodup ∧
    fairnessError 2 1 (groupMeanM 1 1 2 (fun _ _ => 0) fun _ => 0) =
      some ((((triuPairs 2).map fun p =>
          (∑ j, |groupMeanM 1 1 2 (fun _ _ => 0) (fun _ => 0) p.1 j -
            groupMeanM 1 1 2 (fun _ _ => 0) (fun _ => 0) p.2 j|) / ((1 : ℕ) : ℝ)).sum) /
        (triuPairs 2).length)) :=
  ⟨⟨le_refl 2, Nat.one_pos⟩,
    C3_fairness_error_mean_over_pairs 1 1 2 (le_refl 2) Nat.one_pos
      (fun _ _ => 0) fun _ => 0⟩

/-- C1: for nonempty data, at least two groups and at least one prototype,
the objective returns `Ax * reconstruction + Ay * classification + Az *
fairness`, where the reconstruction error is the mean over samples of the
squared L2 norm of `X - M @ V` (with `V` unpacked from the first `k * d`
entries of `x` and `M` the latent mapping), and the classification error is
the clipped binary cross-entropy between `y` and `yhat = M @ w` (with `w`
unpacked from the middle `k` entries of `x`). -/
theorem C1_objective_weighted_sum (n k d G : ℕ) (hn : 0 < n) (hG : 2 ≤ G)
    (hk : 0 < k) (Ax Ay Az eps : ℝ) (x : Fin (k * d + k + d) → ℝ)
    (X : Fin n → Fin d → ℝ) (y : Fin n → ℝ) (group : Fin n → Fin G) :
    ∃ fe : ℝ,
      fairnessError G k (groupMeanM n k G
        (getLatentMapping n k d X (unpackV k d x) (unpackAlpha k d x)) group) = some fe ∧
      objective n k d G Ax Ay Az eps x X y group =
        some (Ax * ((∑ i, ∑ f, (X i f -
              ∑ j, getLatentMapping n k d X (unpackV k d x) (unpackAlpha k d x) i j *
                unpackV k d x j f) ^ 2) / n) +
          Ay * logLossR n eps y (fun i =>
              ∑ j, getLatentMapping n k d X (unpackV k d x) (unpackAlpha k d x) i j *
                unpackW k d x j) +
          Az * fe) := by
  obtain ⟨fe, hfe⟩ : ∃ fe : ℝ, fairnessError G k (groupMeanM n k G
      (getLatentMapping n k d X (unpackV k d x) (unpackAlpha k d x)) group) = some fe :=
    ⟨_, fairnessError_eq G k hG hk _⟩
  refine ⟨fe, hfe, ?_⟩
  simp only [objective]
  rw [npMeanList_finRange_map n hn, hfe]

/-- C1 witness: the objective decomposition instantiated at a concrete
one-sample, one-prototype, one-feature, two-group input with zero data and
zero weights. -/
theorem C1_objective_weighted_sum_witness :
    ((0 : ℕ) < 1 ∧ (2 : ℕ) ≤ 2 ∧ (0 : ℕ) < 1) ∧
    (∃ fe : ℝ,
      fairnessError 2 1 (groupMeanM 1 1 2
        (getLatentMapping 1 1 1 (fun _ _ => 0) (unpackV 1 1 fun _ => 0)
          (unpackAlpha 1 1 fun _ => 0)) fun _ => 0) = some fe ∧
      objective 1 1 1 2 0 0 0 0 (fun _ => 0) (fun _ _ => 0) (fun _ => 0) (fun _ => 0) =
        some (0 * ((∑ i : Fin 1, ∑ f : Fin 1, ((0 : ℝ) -
              ∑ j, getLatentMapping 1 1 1 (fun _ _ => 0) (unpackV 1 1 fun _ => 0)
                (unpackAlpha 1 1 fun _ => 0) i j *
                unpackV 1 1 (fun _ => 0) j f) ^ 2) / ((1 : ℕ) : ℝ)) +
          0 * logLossR 1 0 (fun _ => 0) (fun i =>
              ∑ j, getLatentMapping 1 1 1 (fun _ _ => 0) (unpackV 1 1 fun _ => 0)
                (unpackAlpha 1 1 fun _ => 0) i j * unpackW 1 1 (fun _ => 0) j) +
          0 * fe)) :=
  ⟨⟨Nat.one_pos, le_refl 2, Nat.one_pos⟩,
    C1_objective_weighted_sum 1 1 1 2 Nat.one_pos (le_refl 2) Nat.one_pos
      0 0 0 0 (fun _ => 0) (fun _ _ => 0) (fun _ => 0) (fun _ => 0)⟩

/-- C4: when the underlying minimizer fails with an exception, the fitting
path with sensitive features surfaces the single RuntimeError message
`The loss minimization failed.` and returns no fitted state at all, so no
learned quantity (prototypes, coefficients, dimension weights) is stored
from the failed attempt. -/
theorem C4_minimizer_exception_single_failure (L : Type) (n k d G : ℕ)
    (cfg : FRLConfig) (minimizeFn : Minimizer (k * d + k + d)) (eps : ℝ)
    (X : Fin n → Fin d → ℝ) (y : Fin n → ℝ) (group : Fin n → Fin G)
    (classes : List L) (x0 : Fin (k * d + k + d) → ℝ) (e : String)
    (hfail : ∀ f c, minimizeFn f c = Except.error e) :
    optimizeWithSensitiveFeatures L n k d G cfg minimizeFn eps X y group classes x0 =
      Except.error "The loss minimization failed." ∧
    ∀ st : FRLFitted L k d,
      optimizeWithSensitiveFeatures L n k d G cfg minimizeFn eps X y group classes x0 ≠
        Except.ok st := by
  have h : optimizeWithSensitiveFeatures L n k d G cfg minimizeFn eps X y group classes x0 =
      Except.error "The loss minimization failed." := by
    unfold optimizeWithSensitiveFeatures
    rw [hfail]
  refine ⟨h, fun st hst => ?_⟩
  rw [h] at hst
  cases hst

/-- C4 witness: a minimizer that always raises produces exactly the single
failure message and no fitted state, at a concrete instantiation. -/
theorem C4_minimizer_exception_single_failure_witness :
    (∀ (f : (Fin (1 * 1 + 1 + 1) → ℝ) → Option ℝ) (c : MinimizeCall (1 * 1 + 1 + 1)),
      ((fun _ _ => Except.error "boom") : Minimizer (1 * 1 + 1 + 1)) f c =
        Except.error "boom") ∧
    (optimizeWithSensitiveFeatures Unit 1 1 1 2 ⟨1, 1, 1, 1, OptimizerChoice.LBFGSB, 1, 1⟩
        ((fun _ _ => Except.error "boom") : Minimizer (1 * 1 + 1 + 1)) 0
        (fun _ _ => 0) (fun _ => 0) (fun _ => 0) [] (fun _ => 0) =
      Except.error "The loss minimization failed." ∧
    ∀ st : FRLFitted Unit 1 1,
      optimizeWithSensitiveFeatures Unit 1 1 1 2 ⟨1, 1, 1, 1, OptimizerChoice.LBFGSB, 1, 1⟩
          ((fun _ _ => Except.error "boom") : Minimizer (1 * 1 + 1 + 1)) 0
          (fun _ _ => 0) (fun _ => 0) (fun _ => 0) [] (fun _ => 0) ≠
        Except.ok st) :=
  ⟨fun _ _ => rfl,
    C4_minimizer_exception_single_failure Unit 1 1 1 2
      ⟨1, 1, 1, 1, OptimizerChoice.LBFGSB, 1, 1⟩
      ((fun _ _ => Except.error "boom") : Minimizer (1 * 1 + 1 + 1)) 0
      (fun _ _ => 0) (fun _ => 0) (fun _ => 0) [] (fun _ => 0) "boom"
      fun _ _ => rfl⟩

/-- C5 (the code refutes the claim): with the constructor parameter
`optimizer` set to Powell, the `method` argument actually handed to the
minimizer by the fitting path is still L-BFGS-B — observed here through a
minimizer that records in `nit` whether it was invoked with L-BFGS-B. The
configured algorithm is never used. -/
theorem C5_configured_optimizer_ignored :
    (let cfgP : FRLConfig := ⟨1, 1, 1, 1, OptimizerChoice.Powell, 1, 1⟩
     cfgP.optimizer = OptimizerChoice.Powell ∧
     frlMethodUsed cfgP = OptimizerChoice.LBFGSB ∧
     frlMethodUsed cfgP ≠ cfgP.optimizer ∧
     (optimizeWithSensitiveFeatures Unit 1 1 1 2 cfgP
        (fun _ c => Except.ok ⟨fun _ => 0, true,
          if c.method = OptimizerChoice.LBFGSB then 1 else 0⟩) 0
        (fun _ _ => 0) (fun _ => 0) (fun _ => 0) [] (fun _ => 0)).map
        (fun st => st.n_iter) = Except.ok (some 1)) := by
  refine ⟨rfl, rfl, by decide, rfl⟩

/-- C6 counterexample: on a fallback-path fit the fallback classifier is
set, yet the `coef_` field — one component of the claimed learned triple
(prototypes, coefficients, dimension weights) — is also set (it holds the
logistic regression's coefficients), so the claim that the non-selected
alternative is entirely null is false at this concrete input. -/
theorem C6_fallback_sets_coef_counterexample :
    (let st := optimizeWithoutSensitiveFeatures Unit 1 1 1
        (fun _ _ => ⟨fun _ => 0, 0, fun _ => 0⟩) (fun _ _ => 0) (fun _ => 0) []
     st.fall_back_classifier ≠ none ∧ st.coef ≠ none) := by
  exact ⟨fun h => Option.noConfusion h, fun h => Option.noConfusion h⟩

/-- C6 (amended): after every successful fit, exactly one of the fallback
classifier and the pair (prototypes, dimension weights) is set and the
other is null, while the coefficient field is set on both paths — holding
the prototype predictor `w` in with-groups mode and the fallback logistic
regression's coefficients in fallback mode. -/
theorem C6_exactly_one_branch_amended :
    (∀ (L : Type) (n k d G : ℕ) (cfg : FRLConfig)
        (minimizeFn : Minimizer (k * d + k + d)) (eps : ℝ)
        (X : Fin n → Fin d → ℝ) (y : Fin n → ℝ) (group : Fin n → Fin G)
        (classes : List L) (x0 : Fin (k * d + k + d) → ℝ) (st : FRLFitted L k d),
      optimizeWithSensitiveFeatures L n k d G cfg minimizeFn eps X y group classes x0 =
          Except.ok st →
        st.fall_back_classifier = none ∧ st.prototypes ≠ none ∧
          st.alpha ≠ none ∧ st.coef ≠ none) ∧
    (∀ (L : Type) (n k d : ℕ)
        (trainLogReg : (Fin n → Fin d → ℝ) → (Fin n → ℝ) → LogisticModel d)
        (X : Fin n → Fin d → ℝ) (y : Fin n → ℝ) (classes : List L),
      (optimizeWithoutSensitiveFeatures L n k d trainLogReg X y
          classes).fall_back_classifier ≠ none ∧
      (optimizeWithoutSensitiveFeatures L n k d trainLogReg X y
          classes).prototypes = none ∧
      (optimizeWithoutSensitiveFeatures L n k d trainLogReg X y classes).alpha = none ∧
      (optimizeWithoutSensitiveFeatures L n k d trainLogReg X y classes).coef ≠ none) := by
  constructor
  · intro L n k d G cfg minimizeFn eps X y group classes x0 st h
    unfold optimizeWithSensitiveFeatures at h
    split at h
    · cases h
    · injection h with h'
      subst h'
      exact ⟨rfl, fun hc => Option.noConfusion hc, fun hc => Option.noConfusion hc,
        fun hc => Option.noConfusion hc⟩
  · intro L n k d trainLogReg X y classes
    exact ⟨fun hc => Option.noConfusion hc, rfl, rfl, fun hc => Option.noConfusion hc⟩

/-- C6 witness: the amended invariant exercised on the with-groups path
with a concrete minimizer that succeeds. -/
theorem C6_exactly_one_branch_amended_witness :
    (let st : FRLFitted Unit 1 1 :=
      { coef := some ((List.finRange 1).map (unpackW 1 1 fun _ => 0))
        prototypes := some (unpackV 1 1 fun _ => 0)
        alpha := some (unpackAlpha 1 1 fun _ => 0)
        n_iter := some 0
        fall_back_classifier := none
        classes := [] }
     optimizeWithSensitiveFeatures Unit 1 1 1 2 ⟨1, 1, 1, 1, OptimizerChoice.LBFGSB, 1, 1⟩
        (fun _ _ => Except.ok ⟨fun _ => 0, true, 0⟩) 0 (fun _ _ => 0) (fun _ => 0)
        (fun _ => 0) [] (fun _ => 0) = Except.ok st ∧
      st.fall_back_classifier = none ∧ st.prototypes ≠ none ∧
        st.alpha ≠ none ∧ st.coef ≠ none) :=
  ⟨rfl, C6_exactly_one_branch_amended.1 Unit 1 1 1 2
    ⟨1, 1, 1, 1, OptimizerChoice.LBFGSB, 1, 1⟩
    (fun _ _ => Except.ok ⟨fun _ => 0, true, 0⟩) 0 (fun _ _ => 0) (fun _ => 0)
    (fun _ => 0) [] (fun _ => 0) _ rfl⟩

/-- C7: every label returned by `predict` on a fitted model whose stored
classes come from fitting the label encoder on the original label list `y`
is itself a member of `y`; the internal 0/1 encoding never escapes. -/
theorem C7_predict_labels_from_original_set (L : Type) [DecidableEq L]
    (k d n : ℕ) (st : FRLFitted L k d) (y : List L)
    (hcls : st.classes = labelEncoderFit L y) (X : Fin n → Fin d → ℝ)
    (p : Fin n → Option L) (hp : predict L k d n st X = some p)
    (i : Fin n) (l : L) (hl : p i = some l) : l ∈ y := by
  unfold predict at hp
  cases hq : predictProba L k d n st X with
  | none => rw [hq] at hp; cases hp
  | some q =>
    rw [hq] at hp
    have hp2 : some (fun i => st.classes.get? (if 1 / 2 < q i then 1 else 0)) = some p :=
      hp
    injection hp2 with hp'
    rw [← hp'] at hl
    have hmem : l ∈ st.classes := List.get?_mem hl
    rw [hcls] at hmem
    exact List.mem_dedup.mp hmem

/-- C7 witness: a concrete fallback-mode fitted model with classes from the
label list `[0, 1]` predicts the label 0, which is in the original list. -/
theorem C7_predict_labels_from_original_set_witness :
    (({ coef := none, prototypes := none, alpha := none, n_iter := none,
        fall_back_classifier := some ⟨fun _ => 0, 0, fun _ => 0⟩,
        classes := [0, 1] } : FRLFitted ℕ 1 1).classes = labelEncoderFit ℕ [0, 1] ∧
      predict ℕ 1 1 1
        { coef := none, prototypes := none, alpha := none, n_iter := none,
          fall_back_classifier := some ⟨fun _ => 0, 0, fun _ => 0⟩,
          classes := [0, 1] } (fun _ _ => 0) =
        some (fun _ => ([0, 1] : List ℕ).get? (if (1 : ℝ) / 2 < 0 then 1 else 0)) ∧
      (fun _ : Fin 1 => ([0, 1] : List ℕ).get? (if (1 : ℝ) / 2 < 0 then 1 else 0)) 0 =
        some 0) ∧
    (0 : ℕ) ∈ [0, 1] := by
  have hif : ([0, 1] : List ℕ).get? (if (1 : ℝ) / 2 < 0 then 1 else 0) = some 0 := by
    rw [if_neg (by norm_num)]
    rfl
  refine ⟨⟨by decide, rfl, hif⟩, ?_⟩
  exact C7_predict_labels_from_original_set ℕ 1 1 1
    { coef := none, prototypes := none, alpha := none, n_iter := none,
      fall_back_classifier := some ⟨fun _ => 0, 0, fun _ => 0⟩,
      classes := [0, 1] } [0, 1] (by decide) (fun _ _ => 0)
    (fun _ => ([0, 1] : List ℕ).get? (if (1 : ℝ) / 2 < 0 then 1 else 0)) rfl 0 0 hif
